import Mathlib

/-!
Verification development for the HMS Archive RSS feed generator
(generate_rss.py). The HTML sanitization pipeline (clean_html_for_rss),
the plain-text extractor (clean_html_to_text) and the per-item feed
assembly of create_rss_feed are embedded as executable Lean functions
over an HTML node tree. The BeautifulSoup library itself is not part of
the repository; its lenient parse and serialization behaviour is
modelled from the spec (section 4.1 steps 1 and 7).
-/

namespace GenRss

/-- The non-breaking-space character U+00A0. -/
def nbsp : Char := Char.ofNat 0xA0

/-- A one-character string holding the non-breaking space. -/
def nbspStr : String := String.mk [nbsp]

/-- Python whitespace, as recognised by str.isspace / the re module's
whitespace class on str: ASCII whitespace control characters plus the
Unicode space separators (including the non-breaking space). -/
def isPySpace (c : Char) : Bool :=
  c = ' ' || c = '\t' || c = '\n' || c = '\r' ||
  c = Char.ofNat 0x0B || c = Char.ofNat 0x0C ||
  (0x1C ≤ c.toNat && c.toNat ≤ 0x1F) ||
  c = Char.ofNat 0x85 || c = nbsp ||
  c = Char.ofNat 0x1680 ||
  (0x2000 ≤ c.toNat && c.toNat ≤ 0x200A) ||
  c = Char.ofNat 0x2028 || c = Char.ofNat 0x2029 ||
  c = Char.ofNat 0x202F || c = Char.ofNat 0x205F || c = Char.ofNat 0x3000

/-- Python str.strip() on a character list: drop whitespace from both ends. -/
def pyStripL (l : List Char) : List Char :=
  ((l.dropWhile isPySpace).reverse.dropWhile isPySpace).reverse

/-- Python str.strip() on a string. -/
def pyStrip (s : String) : String := String.mk (pyStripL s.data)

/-- Value of a list of decimal digit characters. -/
def decVal (l : List Char) : Nat :=
  l.foldl (fun a c => a * 10 + (c.toNat - 48)) 0

/-- Value of a list of hexadecimal digit characters. -/
def hexDigit (c : Char) : Nat :=
  if c.isDigit then c.toNat - 48
  else if 'a' ≤ c && c ≤ 'f' then c.toNat - 87
  else if 'A' ≤ c && c ≤ 'F' then c.toNat - 55
  else 0

/-- Value of a list of hex digit characters. -/
def hexVal (l : List Char) : Nat :=
  l.foldl (fun a c => a * 16 + hexDigit c) 0

/-- True for hexadecimal digit characters. -/
def isHexDigit (c : Char) : Bool :=
  c.isDigit || ('a' ≤ c && c ≤ 'f') || ('A' ≤ c && c ≤ 'F')

/-- Modelled from the spec: HTML character-reference decoding performed by
the lenient parser (BeautifulSoup/html.parser, not part of the repository).
Recognises the common named entities and numeric references terminated by
a semicolon; anything else is left as literal text. Returns the decoded
character and the remaining input after the reference, or none. -/
def matchEntity (l : List Char) : Option (Char × List Char) :=
  match l with
  | '#' :: rest =>
      match rest with
      | c :: rest2 =>
          if c = 'x' || c = 'X' then
            let ds := rest2.takeWhile isHexDigit
            match rest2.dropWhile isHexDigit with
            | ';' :: rest3 => if ds.isEmpty then none else some (Char.ofNat (hexVal ds), rest3)
            | _ => none
          else
            let ds := rest.takeWhile Char.isDigit
            match rest.dropWhile Char.isDigit with
            | ';' :: rest3 => if ds.isEmpty then none else some (Char.ofNat (decVal ds), rest3)
            | _ => none
      | [] => none
  | _ =>
      let nm := l.takeWhile Char.isAlphanum
      match l.dropWhile Char.isAlphanum with
      | ';' :: rest =>
          let s := String.mk nm
          if s = "amp" then some ('&', rest)
          else if s = "lt" then some ('<', rest)
          else if s = "gt" then some ('>', rest)
          else if s = "quot" then some ('"', rest)
          else if s = "apos" then some (Char.ofNat 39, rest)
          else if s = "nbsp" then some (nbsp, rest)
          else none
      | _ => none

/-- Fuel-driven worker for entity decoding; the fuel bounds the number of
characters processed and is instantiated with the input length. -/
def decodeEntitiesAux : Nat → List Char → List Char
  | 0, l => l
  | _, [] => []
  | fuel+1, c :: rest =>
      if c = '&' then
        match matchEntity rest with
        | some (d, rest2) => d :: decodeEntitiesAux fuel rest2
        | none => '&' :: decodeEntitiesAux fuel rest
      else c :: decodeEntitiesAux fuel rest

/-- Decode HTML character references in a run of text. -/
def decodeEntities (l : List Char) : List Char := decodeEntitiesAux l.length l

/-- A parsed HTML node: a text node or an element with a tag name, an
ordered attribute list and an ordered child sequence (the spec's
HTML Node Tree data model). -/
inductive Node where
  | text (s : String)
  | elem (name : String) (attrs : List (String × String)) (children : List Node)

/-- Lexer tokens for the lenient HTML parse. -/
inductive Tok where
  | text (s : String)
  | tagOpen (name : String) (attrs : List (String × String)) (selfClosing : Bool)
  | tagClose (name : String)

/-- Lower-case a character list into a string (tag and attribute names are
case-normalised by the parser). -/
def lowerStr (l : List Char) : String := String.mk (l.map Char.toLower)

/-- Characters allowed in a tag name. -/
def isNameChar (c : Char) : Bool := c.isAlphanum || c = '-'

/-- Characters allowed in an attribute name. -/
def isAttrNameChar (c : Char) : Bool :=
  !(isPySpace c) && c ≠ '=' && c ≠ '>' && c ≠ '/'

/-- Drop input through the next '>' character, if any. -/
def dropThroughGt : List Char → Option (List Char)
  | [] => none
  | c :: rest => if c = '>' then some rest else dropThroughGt rest

/-- Drop input through the next comment terminator, if any. -/
def dropThroughCommentEnd : List Char → Option (List Char)
  | '-' :: '-' :: '>' :: rest => some rest
  | _ :: rest => dropThroughCommentEnd rest
  | [] => none

/-- Modelled from the spec: attribute parsing of the lenient HTML parser.
Accepts double-quoted, single-quoted and bare attribute values, optional
whitespace around the equals sign, and valueless attributes; attribute
names are lower-cased and values entity-decoded. Returns none when the
tag is unterminated at end of input. -/
def parseAttrsAux : Nat → List Char → List (String × String) →
    Option (List (String × String) × Bool × List Char)
  | 0, _, _ => none
  | fuel+1, cs0, acc =>
      let cs := cs0.dropWhile isPySpace
      match cs with
      | [] => none
      | '>' :: rest => some (acc.reverse, false, rest)
      | '/' :: rest =>
          match rest with
          | '>' :: rest2 => some (acc.reverse, true, rest2)
          | _ => parseAttrsAux fuel rest acc
      | _ =>
          let an := cs.takeWhile isAttrNameChar
          if an.isEmpty then parseAttrsAux fuel (cs.drop 1) acc
          else
            let cs2 := (cs.dropWhile isAttrNameChar).dropWhile isPySpace
            match cs2 with
            | '=' :: cs3a =>
                let cs3 := cs3a.dropWhile isPySpace
                match cs3 with
                | '"' :: cs4 =>
                    let v := cs4.takeWhile (fun d => d ≠ '"')
                    (match cs4.dropWhile (fun d => d ≠ '"') with
                     | _ :: rest =>
                        parseAttrsAux fuel rest
                          ((lowerStr an, String.mk (decodeEntities v)) :: acc)
                     | [] => none)
                | c :: cs4 =>
                    if c = Char.ofNat 39 then
                      let v := cs4.takeWhile (fun d => d ≠ Char.ofNat 39)
                      match cs4.dropWhile (fun d => d ≠ Char.ofNat 39) with
                      | _ :: rest =>
                          parseAttrsAux fuel rest
                            ((lowerStr an, String.mk (decodeEntities v)) :: acc)
                      | [] => none
                    else
                      let v := cs3.takeWhile (fun d => !(isPySpace d) && d ≠ '>')
                      parseAttrsAux fuel
                        (cs3.dropWhile (fun d => !(isPySpace d) && d ≠ '>'))
                        ((lowerStr an, String.mk (decodeEntities v)) :: acc)
                | [] => none
            | _ => parseAttrsAux fuel cs2 ((lowerStr an, "") :: acc)

/-- Parse the inside of a start tag (after the opening angle bracket):
tag name, attributes, optional self-closing slash. None when unterminated. -/
def parseStartTag (cs : List Char) :
    Option (String × List (String × String) × Bool × List Char) :=
  let nm := cs.takeWhile isNameChar
  let rest := cs.dropWhile isNameChar
  match parseAttrsAux (rest.length + 1) rest [] with
  | some (ats, sc, rest2) => some (lowerStr nm, ats, sc, rest2)
  | none => none

/-- Parse the inside of an end tag (after the opening angle bracket and
slash). None when unterminated. -/
def parseEndTag (cs : List Char) : Option (String × List Char) :=
  let nm := cs.takeWhile isNameChar
  match dropThroughGt (cs.dropWhile isNameChar) with
  | some rest => some (lowerStr nm, rest)
  | none => none

/-- Modelled from the spec: the lenient, error-tolerant HTML tokenizer
(spec 4.1 step 1; the repository delegates this to BeautifulSoup with the
html.parser builder). A lone angle bracket that does not open a tag is
literal text; comments, declarations and processing instructions are
skipped; an unterminated construct at end of input degrades to text. -/
def tokenizeAux : Nat → List Char → List Tok
  | 0, _ => []
  | _, [] => []
  | fuel+1, '<' :: rest =>
      match rest with
      | '/' :: rest2 =>
          (match rest2 with
           | c :: _ =>
              if c.isAlpha then
                match parseEndTag rest2 with
                | some (nm, rest3) => .tagClose nm :: tokenizeAux fuel rest3
                | none => [.text (String.mk (decodeEntities ('<' :: rest)))]
              else
                match dropThroughGt rest2 with
                | some rest3 => tokenizeAux fuel rest3
                | none => [.text (String.mk (decodeEntities ('<' :: rest)))]
           | [] => [.text (String.mk (decodeEntities ('<' :: rest)))])
      | '!' :: rest2 =>
          (match rest2 with
           | '-' :: '-' :: rest3 =>
              (match dropThroughCommentEnd rest3 with
               | some rest4 => tokenizeAux fuel rest4
               | none => [])
           | _ =>
              match dropThroughGt rest2 with
              | some rest3 => tokenizeAux fuel rest3
              | none => [])
      | '?' :: rest2 =>
          (match dropThroughGt rest2 with
           | some rest3 => tokenizeAux fuel rest3
           | none => [])
      | c :: _ =>
          if c.isAlpha then
            match parseStartTag rest with
            | some (nm, ats, sc, rest3) => .tagOpen nm ats sc :: tokenizeAux fuel rest3
            | none => [.text (String.mk (decodeEntities ('<' :: rest)))]
          else
            .text "<" :: tokenizeAux fuel rest
      | [] => [.text "<"]
  | fuel+1, cs =>
      let t := cs.takeWhile (fun c => c ≠ '<')
      .text (String.mk (decodeEntities t)) ::
        tokenizeAux fuel (cs.dropWhile (fun c => c ≠ '<'))

/-- Tags that never take content (the tree builder's empty-element set). -/
def VOID_TAGS : List String :=
  ["area", "base", "br", "col", "embed", "hr", "img", "input",
   "link", "meta", "param", "source", "track", "wbr"]

/-- An open element on the tree builder's stack: name, attributes and the
children accumulated so far in reverse order. -/
structure BFrame where
  bname : String
  battrs : List (String × String)
  brev : List Node

/-- Attach a finished node to the innermost open element, or to the
document root (kept in reverse order) when the stack is empty. -/
def attachNode (n : Node) : List BFrame → List Node → List BFrame × List Node
  | [], root => ([], n :: root)
  | f :: fs, root => ({ f with brev := n :: f.brev } :: fs, root)

/-- Close stack frames outward, threading the already-closed child node,
until the frame with the sought name has been closed. -/
def closeWithChild (nm : String) (child : Node) :
    List BFrame → List Node → List BFrame × List Node
  | [], root => ([], child :: root)
  | f :: fs, root =>
      let node := Node.elem f.bname f.battrs (child :: f.brev).reverse
      if f.bname = nm then attachNode node fs root
      else closeWithChild nm node fs root

/-- Close open elements up to and including the one with the given name
(the builder's pop-to-tag operation for a matched end tag). -/
def closeUpTo (nm : String) : List BFrame → List Node → List BFrame × List Node
  | [], root => ([], root)
  | f :: fs, root =>
      let node := Node.elem f.bname f.battrs f.brev.reverse
      if f.bname = nm then attachNode node fs root
      else closeWithChild nm node fs root

/-- Implicitly close the remaining open elements at end of input,
threading the innermost finished node outward. -/
def finishWithChild (child : Node) : List BFrame → List Node → List Node
  | [], root => (child :: root).reverse
  | f :: fs, root =>
      finishWithChild (Node.elem f.bname f.battrs (child :: f.brev).reverse) fs root

/-- Finish the parse: close any still-open elements and return the root
sequence in document order. -/
def finishStack : List BFrame → List Node → List Node
  | [], root => root.reverse
  | f :: fs, root => finishWithChild (Node.elem f.bname f.battrs f.brev.reverse) fs root

/-- Modelled from the spec: the lenient tree builder (spec 4.1 step 1).
Start tags push a frame (void elements attach immediately); an end tag
closes up to the most recent matching open element and is ignored when
nothing matches; remaining open elements are closed at end of input. -/
def buildAux : List Tok → List BFrame → List Node → List Node
  | [], stack, root => finishStack stack root
  | .text s :: rest, stack, root =>
      let p := attachNode (Node.text s) stack root
      buildAux rest p.1 p.2
  | .tagOpen nm ats sc :: rest, stack, root =>
      if nm ∈ VOID_TAGS || sc then
        let p := attachNode (Node.elem nm ats []) stack root
        buildAux rest p.1 p.2
      else buildAux rest ({ bname := nm, battrs := ats, brev := [] } :: stack) root
  | .tagClose nm :: rest, stack, root =>
      if stack.any (fun f => f.bname = nm) then
        let p := closeUpTo nm stack root
        buildAux rest p.1 p.2
      else buildAux rest stack root

/-- Modelled from the spec: parse a raw HTML string into a node forest
with the lenient parser. Total on every input string. -/
def parseHTML (s : String) : List Node :=
  buildAux (tokenizeAux (s.data.length + 1) s.data) [] []

/-- Escape one character of text content for serialization. -/
def escCharT (c : Char) : List Char :=
  if c = '&' then "&amp;".data
  else if c = '<' then "&lt;".data
  else if c = '>' then "&gt;".data
  else [c]

/-- Escape one character of an attribute value for serialization. -/
def escCharA (c : Char) : List Char :=
  if c = '&' then "&amp;".data
  else if c = '<' then "&lt;".data
  else if c = '>' then "&gt;".data
  else if c = '"' then "&quot;".data
  else [c]

/-- Escape text content for serialization. -/
def escText (s : String) : String :=
  String.mk (s.data.foldr (fun c acc => escCharT c ++ acc) [])

/-- Escape an attribute value for serialization. -/
def escAttr (s : String) : String :=
  String.mk (s.data.foldr (fun c acc => escCharA c ++ acc) [])

/-- Render an attribute list, each attribute double-quoted, in order. -/
def attrsString (ats : List (String × String)) : String :=
  ats.foldl (fun acc p => acc ++ " " ++ p.1 ++ "=\"" ++ escAttr p.2 ++ "\"") ""

mutual

/-- Modelled from the spec: serialize one node back to HTML text
(spec 4.1 step 7); text is entity-escaped, void elements self-close. -/
def serializeNode : Node → String
  | .text s => escText s
  | .elem n ats c =>
      if n ∈ VOID_TAGS then "<" ++ n ++ attrsString ats ++ "/>"
      else "<" ++ n ++ attrsString ats ++ ">" ++ serializeList c ++ "</" ++ n ++ ">"

/-- Serialize a node sequence by concatenation. -/
def serializeList : List Node → String
  | [] => ""
  | x :: rest => serializeNode x ++ serializeList rest

end

mutual

/-- All text-node strings below one node, in document order. -/
def nodeStrings : Node → List String
  | .text s => [s]
  | .elem _ _ c => listStrings c

/-- All text-node strings of a node sequence, in document order. -/
def listStrings : List Node → List String
  | [] => []
  | x :: rest => nodeStrings x ++ listStrings rest

end

/-- Concatenate a list of strings without separator (get_text with the
default empty separator). -/
def concatStrings (l : List String) : String := l.foldl (fun a b => a ++ b) ""

/-- Text content of a node sequence, concatenated without separator. -/
def getTextAll (l : List Node) : String := concatStrings (listStrings l)

/-- Join strings with a single space between consecutive entries
(get_text with a one-space separator). -/
def joinSp : List String → String
  | [] => ""
  | [s] => s
  | s :: rest => s ++ " " ++ joinSp rest

/-- Tags kept by the sanitizer, from generate_rss.py ALLOWED_TAGS. -/
def ALLOWED_TAGS : List String :=
  ["p", "br", "strong", "b", "em", "i", "u",
   "a", "h1", "h2", "h3", "h4", "h5", "h6",
   "ul", "ol", "li", "blockquote", "hr", "sub", "sup"]

/-- Attributes kept per tag, from generate_rss.py ALLOWED_ATTRS: only
href on anchor tags, nothing anywhere else. -/
def allowedAttrsFor (n : String) : List String :=
  if n = "a" then ["href"] else []

mutual

/-- Tag renaming pass of clean_html_for_rss: rename every element with
the first name to the second, preserving attributes and children. -/
def renameNode (a b : String) : Node → Node
  | .text s => .text s
  | .elem n ats c => .elem (if n = a then b else n) ats (renameList a b c)

/-- Tag renaming over a node sequence. -/
def renameList (a b : String) : List Node → List Node
  | [] => []
  | x :: rest => renameNode a b x :: renameList a b rest

end

mutual

/-- Unwrap pass of clean_html_for_rss: an element whose name is not in
ALLOWED_TAGS is replaced by its (recursively unwrapped) children. -/
def unwrapNode : Node → List Node
  | .text s => [.text s]
  | .elem n ats c =>
      if n ∈ ALLOWED_TAGS then [.elem n ats (unwrapList c)]
      else unwrapList c

/-- Unwrap pass over a node sequence. -/
def unwrapList : List Node → List Node
  | [] => []
  | x :: rest => unwrapNode x ++ unwrapList rest

end

mutual

/-- Attribute-strip pass of clean_html_for_rss: delete every attribute
not allowed for the element's tag name. -/
def stripAttrsNode : Node → Node
  | .text s => .text s
  | .elem n ats c =>
      .elem n (ats.filter (fun p => decide (p.1 ∈ allowedAttrsFor n)))
        (stripAttrsList c)

/-- Attribute-strip pass over a node sequence. -/
def stripAttrsList : List Node → List Node
  | [] => []
  | x :: rest => stripAttrsNode x :: stripAttrsList rest

end

/-- True when a child sequence contains no element node (the code's
check that find_all on the tag returns nothing). -/
def noElemChild : List Node → Bool
  | [] => true
  | .text _ :: rest => noElemChild rest
  | .elem _ _ _ :: _ => false

/-- True when the string consists solely of whitespace or non-breaking
spaces (the code's check via replacing the non-breaking space and
stripping). -/
def wsOnly (s : String) : Bool := s.data.all isPySpace

mutual

/-- Empty-tag collapse pass of clean_html_for_rss: a non-void element
with no element children is dropped when its text is empty and replaced
by a single space when its text is whitespace-only; other elements are
kept, recursing into children. -/
def collapseNode : Node → List Node
  | .text s => [.text s]
  | .elem n ats c =>
      if n = "br" ∨ n = "hr" then [.elem n ats c]
      else if noElemChild c then
        let t := getTextAll c
        if wsOnly t then
          if t = "" then [] else [.text " "]
        else [.elem n ats c]
      else [.elem n ats (collapseList c)]

/-- Empty-tag collapse pass over a node sequence. -/
def collapseList : List Node → List Node
  | [] => []
  | x :: rest => collapseNode x ++ collapseList rest

end

/-- Replace every non-breaking space by a regular space. -/
def replaceNbsp (l : List Char) : List Char :=
  l.map (fun c => if c = nbsp then ' ' else c)

/-- Fuel-driven worker collapsing runs of regular spaces to one space. -/
def collapseSpacesAux : Nat → List Char → List Char
  | 0, l => l
  | _, [] => []
  | fuel+1, c :: rest =>
      if c = ' ' then ' ' :: collapseSpacesAux fuel (rest.dropWhile (fun d => d = ' '))
      else c :: collapseSpacesAux fuel rest

/-- The regex pass replacing two or more consecutive spaces by one. -/
def collapseSpaces (l : List Char) : List Char := collapseSpacesAux l.length l

/-- Index of the last newline inside the leading whitespace run, if any. -/
def lastNlInRun : List Char → Option Nat
  | [] => none
  | c :: rest =>
      if isPySpace c then
        match lastNlInRun rest with
        | some i => some (i + 1)
        | none => if c = '\n' then some 0 else none
      else none

/-- Fuel-driven worker for the blank-line collapse regex: a newline, any
whitespace, then a newline collapse to a single newline (leftmost-longest
as re.sub matches). -/
def collapseBlankAux : Nat → List Char → List Char
  | 0, l => l
  | _, [] => []
  | fuel+1, c :: rest =>
      if c = '\n' then
        match lastNlInRun rest with
        | some i => '\n' :: collapseBlankAux fuel (rest.drop (i + 1))
        | none => '\n' :: collapseBlankAux fuel rest
      else c :: collapseBlankAux fuel rest

/-- The regex pass collapsing blank-line runs to a single newline. -/
def collapseBlankLines (l : List Char) : List Char := collapseBlankAux l.length l

/-- The sanitizer's tree transformation: parse, rename b to strong and
i to em, unwrap disallowed tags, strip disallowed attributes, collapse
empty or whitespace-only tags (generate_rss.py lines 38 to 74). -/
def cleanTree (x : String) : List Node :=
  collapseList (stripAttrsList (unwrapList
    (renameList "i" "em" (renameList "b" "strong" (parseHTML x)))))

/-- The sanitizer clean_html_for_rss: empty input maps to the empty
string; otherwise the cleaned tree is serialized, non-breaking spaces
become regular spaces, space runs and blank lines are collapsed and the
result is stripped (generate_rss.py lines 29 to 89). -/
def clean_html_for_rss (h : String) : String :=
  if h = "" then ""
  else
    pyStrip (String.mk (collapseBlankLines (collapseSpaces
      (replaceNbsp (serializeList (cleanTree h)).data))))

/-- Fuel-driven worker collapsing every whitespace run to one space. -/
def collapseAllWsAux : Nat → List Char → List Char
  | 0, l => l
  | _, [] => []
  | fuel+1, c :: rest =>
      if isPySpace c then ' ' :: collapseAllWsAux fuel (rest.dropWhile isPySpace)
      else c :: collapseAllWsAux fuel rest

/-- The regex pass replacing every whitespace run by a single space. -/
def collapseAllWs (l : List Char) : List Char := collapseAllWsAux l.length l

/-- The plain-text extractor clean_html_to_text: empty input maps to the
empty string; otherwise all text-node content is joined with a single
space separator, whitespace runs are collapsed and the result stripped
(generate_rss.py lines 92 to 99). -/
def clean_html_to_text (t : String) : String :=
  if t = "" then ""
  else pyStrip (String.mk (collapseAllWs (joinSp (listStrings (parseHTML t))).data))

/-- A story record as consumed by create_rss_feed: every field optional,
read with dict.get semantics. -/
structure Story where
  id : Option Nat := none
  name : Option String := none
  link : Option String := none
  description : Option String := none
  content : Option String := none
  image : Option String := none
  thumbnail : Option String := none
  issue_number : Option Nat := none

/-- The description source: story.description when truthy, else
story.content with empty-string default (the Python or-chain). -/
def descSource (s : Story) : String :=
  match s.description with
  | some d => if d = "" then s.content.getD "" else d
  | none => s.content.getD ""

/-- Stringified story id with empty-string default, as str applied to
story.get with an empty default. -/
def idText (s : Story) : String :=
  match s.id with
  | some n => toString n
  | none => ""

/-- The enclosure source: story.image when truthy, else story.thumbnail
(the Python or-chain); empty when neither is truthy. -/
def enclosureSource (s : Story) : String :=
  match s.image with
  | some i => if i = "" then s.thumbnail.getD "" else i
  | none => s.thumbnail.getD ""

/-- The description truncation of create_rss_feed: text longer than 300
characters is cut to its first 297 characters plus a three-dot ellipsis. -/
def truncate300 (t : String) : String :=
  if 300 < t.length then String.mk (t.data.take 297) ++ "..." else t

/-- One RSS item as assembled by create_rss_feed: optional fields are
none when the corresponding element is not emitted; the guid carries its
isPermaLink flag. -/
structure RssItem where
  title : String
  link : Option String
  guid : Option (Bool × String)
  description : Option String
  encodedContent : Option String
  enclosureUrl : Option String
  category : Option String

/-- The per-story item assembly of create_rss_feed (lines 160 to 197):
title defaults only when the name key is absent; a truthy link produces
a link element and a permalink guid, otherwise a non-permalink guid from
the stringified id; description is extracted text, truncated; content is
sanitized HTML when non-empty; enclosure and category are emitted only
when their sources are truthy. -/
def makeItem (s : Story) : RssItem :=
  { title := s.name.getD "Untitled Story"
    link := if s.link.getD "" = "" then none else some (s.link.getD "")
    guid := if s.link.getD "" = "" then some (false, idText s)
            else some (true, s.link.getD "")
    description :=
      if descSource s = "" then none
      else some (truncate300 (clean_html_to_text (descSource s)))
    encodedContent :=
      if s.content.getD "" = "" then none
      else some (clean_html_for_rss (s.content.getD ""))
    enclosureUrl :=
      if enclosureSource s = "" then none else some (enclosureSource s)
    category :=
      match s.issue_number with
      | some n => if n = 0 then none else some ("Issue " ++ toString n)
      | none => none }

/-- The item sequence of the generated feed, in input order. -/
def feedItems (stories : List Story) : List RssItem := stories.map makeItem

mutual

/-- Every element of this node's subtree has an allow-listed tag name. -/
def tagsOkNode : Node → Bool
  | .text _ => true
  | .elem n _ c => decide (n ∈ ALLOWED_TAGS) && tagsOkList c

/-- Every element of this forest has an allow-listed tag name. -/
def tagsOkList : List Node → Bool
  | [] => true
  | x :: rest => tagsOkNode x && tagsOkList rest

end

mutual

/-- Every attribute in this node's subtree is allowed for its tag. -/
def attrsOkNode : Node → Bool
  | .text _ => true
  | .elem n ats c =>
      ats.all (fun p => decide (p.1 ∈ allowedAttrsFor n)) && attrsOkList c

/-- Every attribute in this forest is allowed for its tag. -/
def attrsOkList : List Node → Bool
  | [] => true
  | x :: rest => attrsOkNode x && attrsOkList rest

end

/-- True when no character of the list is an opening angle bracket. -/
def noLtL (l : List Char) : Bool := l.all (fun c => decide (c ≠ '<'))

/-- True when no character of the string is an opening angle bracket. -/
def noLt (s : String) : Bool := noLtL s.data

/-- True when the character list contains a tag-shaped substring: an
opening angle bracket immediately followed by a letter with a closing
angle bracket somewhere later. -/
def hasTagShape : List Char → Bool
  | [] => false
  | c :: rest =>
      (decide (c = '<') && (match rest with
        | d :: _ => d.isAlpha && rest.any (fun e => decide (e = '>'))
        | [] => false)) || hasTagShape rest

/-- The story of the spec's assembler example: empty name, no link,
id 42, content a single paragraph. -/
def c1Story : Story :=
  { id := some 42, name := some "", content := some "<p>Hi</p>" }

/-- A story whose link field is present but empty. -/
def c5Story : Story := { id := some 7, link := some "" }

/-- A plain 305-character text, longer than the truncation threshold. -/
def c4LongText : String := String.mk (List.replicate 305 'a')

/-- A story whose description extracts to more than 300 characters. -/
def c4Story : Story := { description := some c4LongText }

theorem tagsOkList_append (a b : List Node) :
    tagsOkList (a ++ b) = (tagsOkList a && tagsOkList b) := by
  induction a with
  | nil => simp [tagsOkList]
  | cons x rest ih => simp [tagsOkList, ih, Bool.and_assoc]

theorem attrsOkList_append (a b : List Node) :
    attrsOkList (a ++ b) = (attrsOkList a && attrsOkList b) := by
  induction a with
  | nil => simp [attrsOkList]
  | cons x rest ih => simp [attrsOkList, ih, Bool.and_assoc]

mutual

theorem unwrapNode_tagsOk (x : Node) : tagsOkList (unwrapNode x) = true := by
  cases x with
  | text s => simp [unwrapNode, tagsOkList, tagsOkNode]
  | elem n ats c =>
      by_cases h : n ∈ ALLOWED_TAGS
      · simp [unwrapNode, h, tagsOkList, tagsOkNode, unwrapList_tagsOk c]
      · simp [unwrapNode, h, unwrapList_tagsOk c]

theorem unwrapList_tagsOk (l : List Node) : tagsOkList (unwrapList l) = true := by
  cases l with
  | nil => simp [unwrapList, tagsOkList]
  | cons x rest =>
      simp [unwrapList, tagsOkList_append, unwrapNode_tagsOk x,
        unwrapList_tagsOk rest]

end

mutual

theorem stripAttrsNode_tagsOk (x : Node) :
    tagsOkNode (stripAttrsNode x) = tagsOkNode x := by
  cases x with
  | text s => simp [stripAttrsNode]
  | elem n ats c =>
      simp [stripAttrsNode, tagsOkNode, stripAttrsList_tagsOk c]

theorem stripAttrsList_tagsOk (l : List Node) :
    tagsOkList (stripAttrsList l) = tagsOkList l := by
  cases l with
  | nil => simp [stripAttrsList]
  | cons x rest =>
      simp [stripAttrsList, tagsOkList, stripAttrsNode_tagsOk x,
        stripAttrsList_tagsOk rest]

end

mutual

theorem stripAttrsNode_attrsOk (x : Node) :
    attrsOkNode (stripAttrsNode x) = true := by
  cases x with
  | text s => simp [stripAttrsNode, attrsOkNode]
  | elem n ats c =>
      simp only [stripAttrsNode, attrsOkNode, Bool.and_eq_true,
        List.all_eq_true, stripAttrsList_attrsOk c, and_true]
      intro p hp
      exact (List.mem_filter.mp hp).2

theorem stripAttrsList_attrsOk (l : List Node) :
    attrsOkList (stripAttrsList l) = true := by
  cases l with
  | nil => simp [stripAttrsList, attrsOkList]
  | cons x rest =>
      simp [stripAttrsList, attrsOkList, stripAttrsNode_attrsOk x,
        stripAttrsList_attrsOk rest]

end

mutual

theorem collapseNode_tagsOk (x : Node) (h : tagsOkNode x = true) :
    tagsOkList (collapseNode x) = true := by
  cases x with
  | text s => simp [collapseNode, tagsOkList, tagsOkNode]
  | elem n ats c =>
      simp only [tagsOkNode, Bool.and_eq_true] at h
      by_cases hbr : n = "br" ∨ n = "hr"
      · simp [collapseNode, hbr, tagsOkList, tagsOkNode, h.1, h.2]
      · by_cases hne : noElemChild c = true
        · by_cases hws : wsOnly (getTextAll c) = true
          · by_cases ht : getTextAll c = ""
            · simp [collapseNode, hbr, hne, hws, ht, tagsOkList]
            · simp [collapseNode, hbr, hne, hws, ht, tagsOkList, tagsOkNode]
          · simp [collapseNode, hbr, hne, hws, tagsOkList, tagsOkNode, h.1, h.2]
        · simp only [Bool.not_eq_true] at hne
          simp [collapseNode, hbr, hne, tagsOkList, tagsOkNode, h.1,
            collapseList_tagsOk c h.2]

theorem collapseList_tagsOk (l : List Node) (h : tagsOkList l = true) :
    tagsOkList (collapseList l) = true := by
  cases l with
  | nil => simp [collapseList, tagsOkList]
  | cons x rest =>
      simp only [tagsOkList, Bool.and_eq_true] at h
      simp [collapseList, tagsOkList_append, collapseNode_tagsOk x h.1,
        collapseList_tagsOk rest h.2]

end

mutual

theorem collapseNode_attrsOk (x : Node) (h : attrsOkNode x = true) :
    attrsOkList (collapseNode x) = true := by
  cases x with
  | text s => simp [collapseNode, attrsOkList, attrsOkNode]
  | elem n ats c =>
      simp only [attrsOkNode, Bool.and_eq_true] at h
      by_cases hbr : n = "br" ∨ n = "hr"
      · simp [collapseNode, hbr, attrsOkList, attrsOkNode, h.1, h.2]
      · by_cases hne : noElemChild c = true
        · by_cases hws : wsOnly (getTextAll c) = true
          · by_cases ht : getTextAll c = ""
            · simp [collapseNode, hbr, hne, hws, ht, attrsOkList]
            · simp [collapseNode, hbr, hne, hws, ht, attrsOkList, attrsOkNode]
          · simp [collapseNode, hbr, hne, hws, attrsOkList, attrsOkNode, h.1, h.2]
        · simp only [Bool.not_eq_true] at hne
          simp [collapseNode, hbr, hne, attrsOkList, attrsOkNode, h.1,
            collapseList_attrsOk c h.2]

theorem collapseList_attrsOk (l : List Node) (h : attrsOkList l = true) :
    attrsOkList (collapseList l) = true := by
  cases l with
  | nil => simp [collapseList, attrsOkList]
  | cons x rest =>
      simp only [attrsOkList, Bool.and_eq_true] at h
      simp [collapseList, attrsOkList_append, collapseNode_attrsOk x h.1,
        collapseList_attrsOk rest h.2]

end

mutual

theorem unwrapNode_id (x : Node) (h : tagsOkNode x = true) :
    unwrapNode x = [x] := by
  cases x with
  | text s => simp [unwrapNode]
  | elem n ats c =>
      simp only [tagsOkNode, Bool.and_eq_true, decide_eq_true_eq] at h
      simp [unwrapNode, h.1, unwrapList_id c h.2]

theorem unwrapList_id (l : List Node) (h : tagsOkList l = true) :
    unwrapList l = l := by
  cases l with
  | nil => simp [unwrapList]
  | cons x rest =>
      simp only [tagsOkList, Bool.and_eq_true] at h
      simp [unwrapList, unwrapNode_id x h.1, unwrapList_id rest h.2]

end

theorem cleanTree_tagsOk (x : String) : tagsOkList (cleanTree x) = true := by
  unfold cleanTree
  apply collapseList_tagsOk
  rw [stripAttrsList_tagsOk]
  exact unwrapList_tagsOk _

theorem cleanTree_attrsOk (x : String) : attrsOkList (cleanTree x) = true := by
  unfold cleanTree
  apply collapseList_attrsOk
  exact stripAttrsList_attrsOk _

theorem mem_of_mem_dropWhile {p : Char → Bool} {c : Char} :
    ∀ {l : List Char}, c ∈ l.dropWhile p → c ∈ l := by
  intro l
  induction l with
  | nil => simp [List.dropWhile]
  | cons a rest ih =>
      intro hc
      rw [List.dropWhile_cons] at hc
      by_cases hp : p a = true
      · rw [if_pos hp] at hc
        exact List.mem_cons_of_mem _ (ih hc)
      · rw [if_neg hp] at hc
        exact hc

theorem noLtL_dropWhile (p : Char → Bool) (l : List Char)
    (h : noLtL l = true) : noLtL (l.dropWhile p) = true := by
  simp only [noLtL, List.all_eq_true] at h ⊢
  intro c hc
  exact h c (mem_of_mem_dropWhile hc)

theorem noLtL_reverse (l : List Char) (h : noLtL l = true) :
    noLtL l.reverse = true := by
  simp only [noLtL, List.all_eq_true, List.mem_reverse] at h ⊢
  exact h

theorem pyStripL_noLt (l : List Char) (h : noLtL l = true) :
    noLtL (pyStripL l) = true := by
  unfold pyStripL
  exact noLtL_reverse _ (noLtL_dropWhile _ _ (noLtL_reverse _ (noLtL_dropWhile _ _ h)))

theorem noLt_append (a b : String) : noLt (a ++ b) = (noLt a && noLt b) := by
  simp [noLt, noLtL, String.data_append, List.all_append]

theorem joinSp_noLt (L : List String) (h : ∀ s ∈ L, noLt s = true) :
    noLt (joinSp L) = true := by
  induction L with
  | nil => decide
  | cons s rest ih =>
      cases rest with
      | nil => exact h s (by simp)
      | cons r rs =>
          have h1 : noLt s = true := h s (by simp)
          have h2 : noLt (joinSp (r :: rs)) = true :=
            ih (fun t ht => h t (by simp [ht]))
          show noLt (s ++ " " ++ joinSp (r :: rs)) = true
          rw [noLt_append, noLt_append, h1, h2]
          decide

theorem collapseAllWsAux_noLt (fuel : Nat) :
    ∀ l : List Char, noLtL l = true → noLtL (collapseAllWsAux fuel l) = true := by
  induction fuel with
  | zero =>
      intro l h
      simpa only [collapseAllWsAux] using h
  | succ f ih =>
      intro l h
      cases l with
      | nil => simp [collapseAllWsAux, noLtL]
      | cons c rest =>
          simp only [noLtL, List.all_cons, Bool.and_eq_true] at h
          by_cases hc : isPySpace c = true
          · have h2 := ih (rest.dropWhile isPySpace) (noLtL_dropWhile _ _ h.2)
            simp only [noLtL, List.all_eq_true] at h2
            simp only [collapseAllWsAux, hc, if_true, noLtL, List.all_cons,
              Bool.and_eq_true, List.all_eq_true]
            exact ⟨by decide, h2⟩
          · have h2 := ih rest h.2
            simp only [noLtL, List.all_eq_true] at h2
            simp only [collapseAllWsAux, hc, if_false, Bool.false_eq_true,
              noLtL, List.all_cons, Bool.and_eq_true, List.all_eq_true]
            exact ⟨h.1, h2⟩

theorem hasTagShape_eq_false (l : List Char) (h : noLtL l = true) :
    hasTagShape l = false := by
  induction l with
  | nil => simp [hasTagShape]
  | cons c rest ih =>
      simp only [noLtL, List.all_cons, Bool.and_eq_true, decide_eq_true_eq] at h
      have hr : hasTagShape rest = false := ih h.2
      simp [hasTagShape, h.1, hr]

theorem clean_html_to_text_noLt (x : String)
    (h : (listStrings (parseHTML x)).all noLt = true) :
    noLt (clean_html_to_text x) = true := by
  by_cases h0 : x = ""
  · subst h0; decide
  · rw [clean_html_to_text, if_neg h0]
    have h1 : noLt (joinSp (listStrings (parseHTML x))) = true :=
      joinSp_noLt _ (List.all_eq_true.mp h)
    exact pyStripL_noLt _ (collapseAllWsAux_noLt _ _ h1)

/-- C1 counterexample: the claim says a story with an empty name yields
title "Untitled Story", but dict.get only falls back to its default when
the key is absent: the spec's own example story, whose name is present
but empty, gets the empty title. -/
theorem c1_counterexample :
    (makeItem c1Story).title = "" ∧
    (makeItem c1Story).title ≠ "Untitled Story" := by
  exact ⟨by decide, by decide⟩

/-- C1 amended: every item's title is story.name with the default
"Untitled Story" applied only when the name field is absent; the example
story (name present but empty, content one paragraph, no link, id 42)
yields title "", a non-permalink guid "42", no link element, and
encoded content the paragraph unchanged. -/
theorem c1_title_default :
    (∀ s : Story, (makeItem s).title = s.name.getD "Untitled Story") ∧
    (makeItem c1Story).title = "" ∧
    (makeItem c1Story).guid = some (false, "42") ∧
    (makeItem c1Story).link = none ∧
    (makeItem c1Story).encodedContent = some "<p>Hi</p>" :=
  ⟨fun _ => rfl, by decide, by decide, by decide, by decide⟩

/-- C2 counterexample: the sanitizer is not idempotent: a paragraph
whose only child is an empty em collapses to an empty paragraph in one
run but to the empty string in a second run, because the single
document-order collapse pass inspects a parent before its child has
been removed. -/
theorem c2_counterexample :
    clean_html_for_rss (clean_html_for_rss "<p><em></em></p>") ≠
      clean_html_for_rss "<p><em></em></p>" := by decide

/-- C2 amended: the disallowed-tag unwrap pass is idempotent on
sanitizer output: every tag of the cleaned tree is allow-listed, so
running the unwrap pass again changes nothing; full sanitization is
however not idempotent, as the nested empty-tag example collapses
further on a second run. -/
theorem c2_unwrap_idempotent :
    (∀ x : String, unwrapList (cleanTree x) = cleanTree x) ∧
    clean_html_for_rss "<p><em></em></p>" = "<p></p>" ∧
    clean_html_for_rss "<p></p>" = "" :=
  ⟨fun x => unwrapList_id _ (cleanTree_tagsOk x), by decide, by decide⟩

/-- C3: allow-list closure: for every input string, every element of the
sanitizer's cleaned tree (the tree clean_html_for_rss serializes) has
its tag name in ALLOWED_TAGS, and every surviving attribute is in the
per-tag allow-list (only href on a, nothing on any other tag). -/
theorem c3_allowlist_closure (x : String) :
    tagsOkList (cleanTree x) = true ∧ attrsOkList (cleanTree x) = true :=
  ⟨cleanTree_tagsOk x, cleanTree_attrsOk x⟩

/-- C4: the item description comes from story.description when present
and non-empty, else story.content, plain-text extracted; text longer
than 300 characters becomes the first 297 characters plus a three-dot
ellipsis, exactly 300 in total; text of at most 300 characters is
unchanged; an empty source suppresses the element. -/
theorem c4_description_truncation (s : Story) :
    ((makeItem s).description =
      if descSource s = "" then none
      else some (truncate300 (clean_html_to_text (descSource s)))) ∧
    (∀ t : String, 300 < t.length →
      truncate300 t = String.mk (t.data.take 297) ++ "..." ∧
      (truncate300 t).length = 300) ∧
    (∀ t : String, t.length ≤ 300 → truncate300 t = t) := by
  refine ⟨rfl, ?_, ?_⟩
  · intro t ht
    constructor
    · simp [truncate300, ht]
    · rw [truncate300, if_pos ht, String.length_append, String.length_mk,
        List.length_take]
      have ht2 : 300 < t.data.length := ht
      have h3 : ("..." : String).length = 3 := rfl
      omega
  · intro t ht
    rw [truncate300, if_neg (by omega)]

set_option maxRecDepth 16384 in
/-- C4 witness: a concrete 305-character description is emitted
truncated to exactly 300 characters, the first 297 plus the ellipsis. -/
theorem c4_witness :
    300 < (clean_html_to_text (descSource c4Story)).length ∧
    truncate300 (clean_html_to_text (descSource c4Story)) =
      String.mk ((clean_html_to_text (descSource c4Story)).data.take 297) ++ "..." ∧
    (truncate300 (clean_html_to_text (descSource c4Story))).length = 300 ∧
    (makeItem c4Story).description =
      some (truncate300 (clean_html_to_text (descSource c4Story))) := by
  have h := (c4_description_truncation c4Story).2.1
    (clean_html_to_text (descSource c4Story)) (by decide)
  refine ⟨by decide, h.1, h.2, ?_⟩
  have h0 := (c4_description_truncation c4Story).1
  rw [if_neg (by decide)] at h0
  exact h0

/-- C5 counterexample: a story whose link field is present but empty
falls into the non-permalink branch: the guid is the stringified id
marked non-permalink and no link element is emitted, so the guid mode is
not determined solely by presence of the link field. -/
theorem c5_counterexample :
    c5Story.link.isSome = true ∧
    (makeItem c5Story).guid = some (false, "7") ∧
    (makeItem c5Story).link = none := by
  exact ⟨by decide, by decide, by decide⟩

/-- C5 amended: exactly one guid mode fires per item, determined by the
link field being present AND non-empty: then the item carries a link
element and a permalink guid both equal to story.link; otherwise a
non-permalink guid equal to the stringified id and no link element. -/
theorem c5_guid_exclusivity (s : Story) :
    ((makeItem s).guid = some (true, s.link.getD "") ∧
      (makeItem s).link = some (s.link.getD "") ∧ s.link.getD "" ≠ "") ∨
    ((makeItem s).guid = some (false, idText s) ∧
      (makeItem s).link = none ∧ s.link.getD "" = "") := by
  by_cases h : s.link.getD "" = ""
  · right
    refine ⟨?_, ?_, h⟩ <;> simp [makeItem, h]
  · left
    refine ⟨?_, ?_, h⟩ <;> simp [makeItem, h]

/-- C6: the empty-tag collapse pass: a non-void element with no element
children is removed when its text content is empty and replaced by a
single space when its text is whitespace-or-nbsp-only; an element with
element children is kept (children recursed), never collapsed; and the
end-to-end whitespace-only example sanitizes to "a b". -/
theorem c6_empty_collapse :
    (∀ (n : String) (ats : List (String × String)) (c rest : List Node),
        ¬(n = "br" ∨ n = "hr") → noElemChild c = true →
        ((getTextAll c = "" →
            collapseList (.elem n ats c :: rest) = collapseList rest) ∧
         (getTextAll c ≠ "" → wsOnly (getTextAll c) = true →
            collapseList (.elem n ats c :: rest) =
              .text " " :: collapseList rest))) ∧
    (∀ (n : String) (ats : List (String × String)) (c rest : List Node),
        noElemChild c = false →
        collapseList (.elem n ats c :: rest) =
          (if n = "br" ∨ n = "hr" then Node.elem n ats c
           else Node.elem n ats (collapseList c)) :: collapseList rest) ∧
    clean_html_for_rss "a<em> </em>b" = "a b" := by
  refine ⟨?_, ?_, by decide⟩
  · intro n ats c rest hbr hne
    constructor
    · intro ht
      have hws0 : wsOnly "" = true := by decide
      simp [collapseList, collapseNode, hbr, hne, ht, hws0]
    · intro ht hws
      simp [collapseList, collapseNode, hbr, hne, hws, ht]
  · intro n ats c rest hne
    by_cases hbr : n = "br" ∨ n = "hr"
    · simp [collapseList, collapseNode, hbr]
    · simp [collapseList, collapseNode, hbr, hne]

/-- C6 witness: the em element holding one non-breaking space is
eligible and is replaced by a single literal space. -/
theorem c6_witness :
    (¬("em" = "br" ∨ "em" = "hr")) ∧
    noElemChild [Node.text nbspStr] = true ∧
    getTextAll [Node.text nbspStr] ≠ "" ∧
    wsOnly (getTextAll [Node.text nbspStr]) = true ∧
    collapseList [Node.elem "em" [] [Node.text nbspStr]] = [Node.text " "] := by
  refine ⟨by decide, by decide, by decide, by decide, ?_⟩
  have h := (c6_empty_collapse.1 "em" [] [Node.text nbspStr] []
    (by decide) (by decide)).2 (by decide) (by decide)
  simpa [collapseList] using h

/-- C7 counterexample: entity decoding reintroduces tag-shaped text: the
encoded paragraph tag extracts to a literal tag-shaped string, so the
extractor's output is not always free of markup tags. -/
theorem c7_counterexample :
    clean_html_to_text "&lt;p&gt;" = "<p>" ∧
    hasTagShape "<p>".data = true := by
  exact ⟨by decide, by decide⟩

/-- C7 amended: the extractor output is built solely from text-node
content joined by single spaces, whitespace-collapsed and trimmed: no
tag of the input survives, and whenever the decoded text nodes contain
no opening angle bracket the output contains none and hence no
tag-shaped substring; decoded entities may however reintroduce angle
brackets; the two-paragraph example extracts to "Para 1 Para 2". -/
theorem c7_extract_no_markup :
    (∀ x : String, (listStrings (parseHTML x)).all noLt = true →
        noLt (clean_html_to_text x) = true ∧
        hasTagShape (clean_html_to_text x).data = false) ∧
    clean_html_to_text "<p>Para 1</p><p>Para 2</p>" = "Para 1 Para 2" := by
  refine ⟨?_, by decide⟩
  intro x hx
  have h1 := clean_html_to_text_noLt x hx
  exact ⟨h1, hasTagShape_eq_false _ h1⟩

/-- C7 witness: the two-paragraph example has angle-bracket-free text
nodes and accordingly an output with no tag-shaped substring. -/
theorem c7_witness :
    (listStrings (parseHTML "<p>Para 1</p><p>Para 2</p>")).all noLt = true ∧
    noLt (clean_html_to_text "<p>Para 1</p><p>Para 2</p>") = true ∧
    hasTagShape (clean_html_to_text "<p>Para 1</p><p>Para 2</p>").data = false := by
  refine ⟨by decide, ?_, ?_⟩
  · exact (c7_extract_no_markup.1 _ (by decide)).1
  · exact (c7_extract_no_markup.1 _ (by decide)).2

/-- C8: totality and graceful degradation: the sanitizer and extractor
are total functions of the input string; malformed input (unclosed tags,
stray end tags, mis-nested tags, junk attributes, encoded entities, a
bare angle bracket) degrades to best-effort output instead of an
error. -/
theorem c8_total_best_effort :
    clean_html_for_rss "<p>unclosed" = "<p>unclosed</p>" ∧
    clean_html_for_rss "</div>stray" = "stray" ∧
    clean_html_for_rss "<u><em>x</u>" = "<u><em>x</em></u>" ∧
    clean_html_for_rss "<p class=\"x\" style>hi</p>" = "<p>hi</p>" ∧
    clean_html_for_rss "a &amp; b" = "a &amp; b" ∧
    clean_html_to_text "<p>a &amp; b" = "a & b" ∧
    clean_html_to_text "</em>x<" = "x <" ∧
    clean_html_to_text "a < b" = "a < b" := by
  exact ⟨by decide, by decide, by decide, by decide, by decide, by decide,
    by decide, by decide⟩

/-- C9: a story with no link and no id still gets exactly one guid,
marked non-permalink with empty text: the guid element is emitted
unconditionally in the no-link branch, while every other optional
element is suppressed by its missing source field. -/
theorem c9_guid_always_emitted (s : Story)
    (h1 : s.link = none) (h2 : s.id = none) (h3 : s.description = none)
    (h4 : s.content = none) (h5 : s.image = none) (h6 : s.thumbnail = none)
    (h7 : s.issue_number = none) :
    (makeItem s).guid = some (false, "") ∧ (makeItem s).link = none ∧
    (makeItem s).description = none ∧ (makeItem s).encodedContent = none ∧
    (makeItem s).enclosureUrl = none ∧ (makeItem s).category = none := by
  simp [makeItem, idText, descSource, enclosureSource, h1, h2, h3, h4, h5, h6, h7]

/-- C9 witness: the all-absent story record. -/
theorem c9_witness :
    (makeItem {}).guid = some (false, "") ∧ (makeItem {}).link = none ∧
    (makeItem {}).description = none ∧ (makeItem {}).encodedContent = none ∧
    (makeItem {}).enclosureUrl = none ∧ (makeItem {}).category = none :=
  c9_guid_always_emitted {} rfl rfl rfl rfl rfl rfl rfl

/-- C10: the post-serialization space collapse applies inside attribute
values too: an anchor whose href holds two consecutive spaces comes out
of the sanitizer with the run collapsed to one space, so allowed
attribute values are not preserved verbatim. -/
theorem c10_attr_space_collapse :
    clean_html_for_rss "<a href=\"x  y\">t</a>" = "<a href=\"x y\">t</a>" ∧
    clean_html_for_rss "<a href=\"x  y\">t</a>" ≠ "<a href=\"x  y\">t</a>" := by
  exact ⟨by decide, by decide⟩

end GenRss
